import Mathlib

/-!
Verification development for the PocketPaw Mission Control orchestration
engine and dashboard frontend.

The dashboard component is embedded from
`src/src/pocketclaw/frontend/js/app.js`.  The orchestration engine (task
lifecycle manager, mention resolver, notification dispatcher, heartbeat
scheduler) is present in the repository only through its documentation
(`src/documentation/features/mission-control.md`) and the specification,
so those components are modelled from the spec's words, as marked on each
definition.
-/

/-- MCTask lifecycle states (spec section 3, MCTask.status). -/
inductive TaskStatus where
  | inbox
  | assigned
  | in_progress
  | review
  | done
  | blocked
deriving DecidableEq, Repr

/-- Agent lifecycle states (spec section 3, AgentProfile.status). -/
inductive AgentStatus where
  | idle
  | active
  | blocked
  | offline
deriving DecidableEq, Repr

/-- MCTask record: the fields of the spec's MCTask entity that the lifecycle
rules touch (spec section 3). -/
structure MCTask where
  id : String
  status : TaskStatus
  assignee_ids : List String
  parent_task_id : Option String
  started_at : Option Nat
  completed_at : Option Nat
deriving DecidableEq, Repr

/-- Agent record: the fields of the spec's AgentProfile entity that
mention resolution and heartbeats touch (spec section 3). -/
structure Agent where
  id : String
  name : String
  status : AgentStatus
  last_heartbeat : Option Nat
deriving DecidableEq, Repr

/-- Notification record (spec section 3). -/
structure Notification where
  id : String
  agent_id : String
  ntype : String
  content : String
  delivered : Bool
  read : Bool
  delivered_at : Option Nat
deriving DecidableEq, Repr

/-- Work summary computed by a heartbeat (spec glossary). -/
structure WorkSummary where
  unread_notifications : Nat
  assigned_tasks : Nat
deriving DecidableEq, Repr

/-- Modelled from the spec: the MCTask Lifecycle Manager's status update
(section 4.3), whose source is not under src/.  "Transition into
in_progress sets started_at if unset (idempotent)"; "Transition into done
sets completed_at (idempotent); transition out of done clears
completed_at."  All other caller-requested status changes are permitted. -/
def updateStatus (t : MCTask) (s : TaskStatus) (now : Nat) : MCTask :=
  { t with
    status := s
    started_at :=
      if s = TaskStatus.in_progress ∧ t.started_at = none then some now
      else t.started_at
    completed_at :=
      if s = TaskStatus.done then
        match t.completed_at with
        | some c => some c
        | none => some now
      else if t.status = TaskStatus.done then none
      else t.completed_at }

/-- The lifecycle invariant of spec section 3: completed_at is set iff
status = done. -/
def completedIffDone (t : MCTask) : Prop :=
  t.completed_at ≠ none ↔ t.status = TaskStatus.done

instance (t : MCTask) : Decidable (completedIffDone t) := by
  unfold completedIffDone
  infer_instance

/-- A sequence of status updates applied in order. -/
def applyUpdates (t : MCTask) (us : List (TaskStatus × Nat)) : MCTask :=
  us.foldl (fun acc u => updateStatus acc u.1 u.2) t

/-- Modelled from the spec: the MCTask Lifecycle Manager's assignment
operation (sections 4.3 and 4.2), whose source is not under src/.
"Assigning >= 1 agent to a task in inbox moves it to assigned
automatically if it was inbox"; the Notification Dispatcher creates "one
Notification per added agent (not re-sent for already-assigned agents on
a re-save)".  Returns the updated task together with the batch of
assignment notifications. -/
def assignTask (t : MCTask) (ids : List String) : MCTask × List Notification :=
  let added := (ids.filter (fun i => ¬ i ∈ t.assignee_ids)).dedup
  let newAssignees := t.assignee_ids ++ added
  let status' :=
    if t.status = TaskStatus.inbox ∧ newAssignees ≠ [] then TaskStatus.assigned
    else t.status
  ({ t with status := status', assignee_ids := newAssignees },
   added.map (fun i =>
     { id := ""
       agent_id := i
       ntype := "assignment"
       content := ""
       delivered := false
       read := false
       delivered_at := none }))

/-- Modelled from the spec: the Notification Dispatcher's notify
operation (section 4.2), whose source is not under src/.  "Creates a
Notification with delivered=false, read=false." -/
def notify (aid ty content : String) : Notification :=
  { id := ""
    agent_id := aid
    ntype := ty
    content := content
    delivered := false
    read := false
    delivered_at := none }

/-- Modelled from the spec: markDelivered (section 4.2), whose source is
not under src/.  "Sets delivered=true and delivered_at=now only if not
already delivered (repeat calls are no-ops, not errors)." -/
def markDelivered (n : Notification) (now : Nat) : Notification :=
  if n.delivered then n
  else { n with delivered := true, delivered_at := some now }

/-- Modelled from the spec: markRead (section 4.2), whose source is not
under src/.  "Requires delivered=true; if delivered is false it is
promoted to delivered first (read implies delivered)." -/
def markRead (n : Notification) (now : Nat) : Notification :=
  let n' := markDelivered n now
  { n' with read := true }

/-- The Notification invariant of spec section 3: read implies
delivered. -/
def readImpliesDelivered (n : Notification) : Prop :=
  n.read = true → n.delivered = true

instance (n : Notification) : Decidable (readImpliesDelivered n) := by
  unfold readImpliesDelivered
  infer_instance

/-- A word character for mention-token boundaries: letters, digits and
underscore. -/
def isWordChar (c : Char) : Bool :=
  c.isAlphanum || c = '_'

/-- Modelled from the spec: the token scan of the Mention Resolver
(section 4.1), whose source is not under src/.  A mention token is a
maximal run of word characters directly after an at sign, where the
character before the at sign is not a word character (the "non-word
boundaries on both sides").  `prevWord` records whether the previously
consumed character was a word character; `fuel` is a structural bound on
the number of steps, sufficient whenever it is at least the length of the
remaining input (every step consumes at least one character).  Tokens are
kept as character lists. -/
def scanTokensF (fuel : Nat) (prevWord : Bool) (cs : List Char) :
    List (List Char) :=
  match fuel, cs with
  | 0, _ => []
  | _ + 1, [] => []
  | fuel + 1, c :: rest =>
    if c = '@' ∧ prevWord = false then
      let name := rest.takeWhile isWordChar
      if name = [] then scanTokensF fuel false rest
      else name :: scanTokensF fuel true (rest.dropWhile isWordChar)
    else scanTokensF fuel (isWordChar c) rest

/-- The mention tokens of a character sequence, scanned left to right
with enough fuel for the whole input. -/
def scanTokens (prevWord : Bool) (cs : List Char) : List (List Char) :=
  scanTokensF cs.length prevWord cs

/-- Case-normalised characters of a string, for the resolver's
case-insensitive name matching. -/
def lowerStr (s : String) : List Char :=
  s.data.map Char.toLower

/-- Accumulate the agent ids mentioned by a list of tokens: the literal
token "all" contributes the task's current assignee set, any other token
contributes the id of the directory agent whose name matches it
case-insensitively, if any. -/
def collectIds (agents : List Agent) (assignees : List String)
    (toks : List (List Char)) : List String :=
  match toks with
  | [] => []
  | tok :: rest =>
    if tok = "all".data then assignees ++ collectIds agents assignees rest
    else
      match agents.find? (fun ag => lowerStr ag.name = tok.map Char.toLower) with
      | some ag => ag.id :: collectIds agents assignees rest
      | none => collectIds agents assignees rest

/-- Modelled from the spec: the Mention Resolver's resolve contract
(section 4.1), whose source is not under src/.  "Scans content for tokens
of the form at-name (case-insensitive, matched against each agent's name
with non-word boundaries on both sides) plus the literal token at-all,
which expands to every agent present in the task's current assignee set
(not the global directory).  Overlapping/duplicate mentions of the same
agent collapse to one.  Unknown names are ignored, not errors." -/
def resolve (content : String) (agents : List Agent)
    (assignees : List String) : List String :=
  (collectIds agents assignees (scanTokens false content.data)).dedup

/-- A parent-link store: each task id paired with its optional parent
task id. -/
def parentOf (store : List (String × Option String)) (x : String) :
    Option String :=
  match store.find? (fun p => p.1 = x) with
  | some p => p.2
  | none => none

/-- Walking the parent chain upward from `b` with bounded fuel: does the
chain reach `a`?  `reaches store fuel b a = true` means `a` is `b` itself
or an ancestor of `b`, i.e. `b` is a descendant-or-self of `a`. -/
def reaches (store : List (String × Option String)) :
    Nat → String → String → Bool
  | 0, _, _ => false
  | fuel + 1, b, a =>
    if b = a then true
    else
      match parentOf store b with
      | some p => reaches store fuel p a
      | none => false

/-- Modelled from the spec: the Task Lifecycle Manager's parent-link
update (section 4.3), whose source is not under src/.  "Setting
parent_task_id is rejected if the new parent is a descendant of the task
(walk the parent chain; reject on cycle detection — this is an error
condition, not silently corrected)." -/
def setParent (store : List (String × Option String)) (a b : String) :
    Except String (List (String × Option String)) :=
  if reaches store (store.length + 1) b a then Except.error "cycle detected"
  else
    Except.ok (store.map (fun p => if p.1 = a then (p.1, some b) else p))

/-- The state-passing form of setParent: on rejection the store is left
unchanged and the flag is false; on success the new store is installed
and the flag is true. -/
def setParentOp (store : List (String × Option String)) (a b : String) :
    List (String × Option String) × Bool :=
  match setParent store a b with
  | Except.ok s' => (s', true)
  | Except.error _ => (store, false)

/-- Unread-notification count for an agent, from the notification
store. -/
def unreadCountFor (notifs : List Notification) (aid : String) : Nat :=
  (notifs.filter (fun n => n.agent_id = aid ∧ n.read = false)).length

/-- Assigned open-task count for an agent, from the task store. -/
def assignedCountFor (tasks : List MCTask) (aid : String) : Nat :=
  (tasks.filter
    (fun t => aid ∈ t.assignee_ids ∧ t.status ≠ TaskStatus.done)).length

/-- Modelled from the spec: one heartbeat for one agent (section 4.5),
whose source is not under src/.  "Compute a work summary —
unread-notification count (urgent signal), assigned open-task count …,
update the agent's last_heartbeat timestamp, set status to active if
there is urgent work (unread notifications) else idle."  Both the
scheduled tick and triggerHeartbeat run this same computation. -/
def triggerHeartbeat (a : Agent) (notifs : List Notification)
    (tasks : List MCTask) (now : Nat) : Agent × WorkSummary :=
  let unread := unreadCountFor notifs a.id
  let assigned := assignedCountFor tasks a.id
  ({ a with
      last_heartbeat := some now
      status := if unread > 0 then AgentStatus.active else AgentStatus.idle },
   { unread_notifications := unread, assigned_tasks := assigned })

/-- One entry of the dashboard's terminal log
(src/src/pocketclaw/frontend/js/app.js, method log). -/
structure LogEntry where
  time : String
  message : String
  level : String
deriving DecidableEq, Repr

/-- One chat message of the dashboard
(src/src/pocketclaw/frontend/js/app.js, method addMessage). -/
structure ChatMessage where
  role : String
  content : String
  time : String
deriving DecidableEq, Repr

/-- The dashboard component's state touched by addMessage, log,
startStreaming, endStreaming and sendMessage
(src/src/pocketclaw/frontend/js/app.js). -/
structure DashState where
  messages : List ChatMessage
  logs : List LogEntry
  inputText : String
  isStreaming : Bool
  streamingContent : String
deriving DecidableEq, Repr

/-- addMessage from src/src/pocketclaw/frontend/js/app.js: pushes a
message record with role, content and the current formatted time. -/
def addMessage (s : DashState) (role content time : String) : DashState :=
  { s with messages := s.messages ++ [{ role := role, content := content, time := time }] }

/-- log from src/src/pocketclaw/frontend/js/app.js: pushes a log entry,
then if the array now holds more than 100 entries shifts off the oldest
one. -/
def log (s : DashState) (message level time : String) : DashState :=
  let logs1 := s.logs ++ [{ time := time, message := message, level := level }]
  { s with logs := if logs1.length > 100 then logs1.tail else logs1 }

/-- A sequence of log calls applied in order; each triple is
(message, level, formatted time). -/
def applyLogCalls (s : DashState) (calls : List (String × String × String)) :
    DashState :=
  calls.foldl (fun st c => log st c.1 c.2.1 c.2.2) s

/-- startStreaming from src/src/pocketclaw/frontend/js/app.js. -/
def startStreaming (s : DashState) : DashState :=
  { s with isStreaming := true, streamingContent := "" }

/-- endStreaming from src/src/pocketclaw/frontend/js/app.js: if streaming
and the accumulated content is truthy (non-empty), push it as an
assistant message; then clear the streaming flag and buffer. -/
def endStreaming (s : DashState) (time : String) : DashState :=
  let s1 :=
    if s.isStreaming = true ∧ s.streamingContent ≠ "" then
      addMessage s "assistant" s.streamingContent time
    else s
  { s1 with isStreaming := false, streamingContent := "" }

/-- The JavaScript string trim used by sendMessage: drop whitespace from
both ends. -/
def jsTrim (s : String) : String :=
  String.mk
    (((s.data.dropWhile Char.isWhitespace).reverse.dropWhile
        Char.isWhitespace).reverse)

/-- sendMessage from src/src/pocketclaw/frontend/js/app.js: trim the
input; if empty (falsy) return with no effect, otherwise push the user
message, clear the input, start the streaming indicator, send the text to
the server (returned here as the optional second component) and log it. -/
def sendMessage (s : DashState) (time : String) : DashState × Option String :=
  let text := jsTrim s.inputText
  if text = "" then (s, none)
  else
    let s1 := addMessage s "user" text time
    let s2 := { s1 with inputText := "" }
    let s3 := startStreaming s2
    let s4 := log s3 (String.append "You: " text) "info" time
    (s4, some text)

/-- C4: after markRead the notification is delivered and read; a
notification that was undelivered at the call is promoted to delivered
(its delivered_at is stamped), and the invariant read implies delivered
holds after every dispatcher operation. -/
theorem markRead_implies_delivered (n : Notification) (now : Nat) :
    (markRead n now).delivered = true ∧
    (markRead n now).read = true ∧
    (n.delivered = false → (markRead n now).delivered_at = some now) ∧
    readImpliesDelivered (markRead n now) ∧
    (∀ aid ty c, readImpliesDelivered (notify aid ty c)) ∧
    (readImpliesDelivered n → readImpliesDelivered (markDelivered n now)) := by
  by_cases h : n.delivered = true
  · refine ⟨?_, rfl, ?_, ?_, ?_, ?_⟩
    · simp [markRead, markDelivered, h]
    · intro hfalse
      rw [h] at hfalse
      cases hfalse
    · intro _
      simp [markRead, markDelivered, h]
    · intro aid ty c hfalse
      cases hfalse
    · intro _ _
      simp [markDelivered, h]
  · have h' : n.delivered = false := by
      cases hd : n.delivered
      · rfl
      · exact absurd hd h
    refine ⟨?_, rfl, ?_, ?_, ?_, ?_⟩
    · simp [markRead, markDelivered, h']
    · intro _
      simp [markRead, markDelivered, h']
    · intro _
      simp [markRead, markDelivered, h']
    · intro aid ty c hfalse
      cases hfalse
    · intro _ _
      simp [markDelivered, h']

/-- Witness for C4 at a concrete undelivered, unread notification: the
call promotes it to delivered and stamps delivered_at. -/
theorem markRead_implies_delivered_witness :
    (markRead (notify "a1" "mention" "hi") 7).delivered_at = some 7 :=
  (markRead_implies_delivered (notify "a1" "mention" "hi") 7).2.2.1 rfl

/-- C5: markDelivered is idempotent — the first call on an undelivered
notification sets delivered and stamps delivered_at with the call time,
every call leaves the notification delivered, and a repeated call at any
later time is a no-op returning the state after the first call. -/
theorem markDelivered_idempotent (n : Notification) (t1 t2 : Nat) :
    (n.delivered = false →
      (markDelivered n t1).delivered = true ∧
      (markDelivered n t1).delivered_at = some t1) ∧
    (markDelivered n t1).delivered = true ∧
    markDelivered (markDelivered n t1) t2 = markDelivered n t1 := by
  by_cases h : n.delivered = true
  · refine ⟨?_, ?_, ?_⟩
    · intro hfalse
      rw [h] at hfalse
      cases hfalse
    · simp [markDelivered, h]
    · simp [markDelivered, h]
  · have h' : n.delivered = false := by
      cases hd : n.delivered
      · rfl
      · exact absurd hd h
    refine ⟨fun _ => ?_, ?_, ?_⟩
    · simp [markDelivered, h']
    · simp [markDelivered, h']
    · simp [markDelivered, h']

/-- Witness for C5 at a concrete undelivered notification: the first call
stamps delivered_at, and the second call changes nothing. -/
theorem markDelivered_idempotent_witness :
    (markDelivered (notify "a1" "mention" "hi") 3).delivered_at = some 3 ∧
    markDelivered (markDelivered (notify "a1" "mention" "hi") 3) 9 =
      markDelivered (notify "a1" "mention" "hi") 3 :=
  ⟨((markDelivered_idempotent (notify "a1" "mention" "hi") 3 9).1 rfl).2,
   (markDelivered_idempotent (notify "a1" "mention" "hi") 3 9).2.2⟩

/-- C7: a heartbeat updates last_heartbeat unconditionally; it sets the
agent's status to active when the agent has at least one unread
notification, and to idle when it has none — independently of the task
store, so in particular even when assigned tasks exist. -/
theorem heartbeat_status (a : Agent) (ns : List Notification)
    (ts : List MCTask) (now : Nat) :
    (triggerHeartbeat a ns ts now).1.last_heartbeat = some now ∧
    ((∃ n ∈ ns, n.agent_id = a.id ∧ n.read = false) →
      (triggerHeartbeat a ns ts now).1.status = AgentStatus.active) ∧
    ((∀ n ∈ ns, n.agent_id = a.id → n.read = true) →
      (triggerHeartbeat a ns ts now).1.status = AgentStatus.idle) ∧
    (triggerHeartbeat a ns ts now).2.unread_notifications =
      unreadCountFor ns a.id ∧
    (triggerHeartbeat a ns ts now).2.assigned_tasks =
      assignedCountFor ts a.id := by
  refine ⟨rfl, ?_, ?_, rfl, rfl⟩
  · rintro ⟨n, hn, hid, hr⟩
    have hmem : n ∈ ns.filter (fun n => decide (n.agent_id = a.id ∧ n.read = false)) := by
      rw [List.mem_filter]
      exact ⟨hn, by simp [hid, hr]⟩
    have hpos : 0 < unreadCountFor ns a.id := by
      unfold unreadCountFor
      exact List.length_pos.mpr (List.ne_nil_of_mem hmem)
    simp [triggerHeartbeat, hpos]
  · intro hallread
    have hnil : ns.filter (fun n => decide (n.agent_id = a.id ∧ n.read = false)) = [] := by
      rw [List.filter_eq_nil_iff]
      intro n hn
      simp only [decide_eq_true_eq, not_and]
      intro hid
      rw [hallread n hn hid]
      simp
    have hz : unreadCountFor ns a.id = 0 := by
      unfold unreadCountFor
      rw [hnil]
      rfl
    simp [triggerHeartbeat, hz]

/-- Witness for C7: a concrete agent with one unread notification goes
active, and the same agent with only read notifications but an assigned
task goes idle while last_heartbeat is stamped in both cases. -/
theorem heartbeat_status_witness :
    (triggerHeartbeat { id := "a1", name := "Jarvis", status := AgentStatus.offline, last_heartbeat := none }
        [{ id := "n1", agent_id := "a1", ntype := "mention", content := "", delivered := true, read := false, delivered_at := some 1 }]
        [] 5).1.status = AgentStatus.active ∧
    (triggerHeartbeat { id := "a1", name := "Jarvis", status := AgentStatus.offline, last_heartbeat := none }
        [{ id := "n1", agent_id := "a1", ntype := "mention", content := "", delivered := true, read := true, delivered_at := some 1 }]
        [{ id := "T", status := TaskStatus.assigned, assignee_ids := ["a1"], parent_task_id := none, started_at := none, completed_at := none }]
        5).1.status = AgentStatus.idle ∧
    (triggerHeartbeat { id := "a1", name := "Jarvis", status := AgentStatus.offline, last_heartbeat := none }
        [{ id := "n1", agent_id := "a1", ntype := "mention", content := "", delivered := true, read := true, delivered_at := some 1 }]
        [{ id := "T", status := TaskStatus.assigned, assignee_ids := ["a1"], parent_task_id := none, started_at := none, completed_at := none }]
        5).1.last_heartbeat = some 5 :=
  ⟨(heartbeat_status _ _ _ 5).2.1 ⟨_, List.mem_singleton_self _, rfl, rfl⟩,
   (heartbeat_status _ _ _ 5).2.2.1 (by decide),
   (heartbeat_status _ _ _ 5).1⟩

/-- C9: endStreaming always clears the streaming flag and buffer, and it
appends exactly one assistant message holding the prior buffer exactly
when the component was streaming with a non-empty buffer. -/
theorem endStreaming_spec (s : DashState) (t : String) :
    (endStreaming s t).isStreaming = false ∧
    (endStreaming s t).streamingContent = "" ∧
    (endStreaming s t).messages =
      (if s.isStreaming = true ∧ s.streamingContent ≠ "" then
        s.messages ++ [{ role := "assistant", content := s.streamingContent, time := t }]
      else s.messages) ∧
    ((endStreaming s t).messages =
        s.messages ++ [{ role := "assistant", content := s.streamingContent, time := t }] ↔
      s.isStreaming = true ∧ s.streamingContent ≠ "") := by
  by_cases h : s.isStreaming = true ∧ s.streamingContent ≠ ""
  · refine ⟨rfl, rfl, ?_, ?_⟩
    · simp [endStreaming, addMessage, h]
    · simp [endStreaming, addMessage, h]
  · refine ⟨rfl, rfl, ?_, ?_⟩
    · simp [endStreaming, addMessage, h]
    · simp [endStreaming, addMessage, h]

/-- C10: when the input trims to the empty string, sendMessage leaves the
whole component state unchanged and sends nothing to the server. -/
theorem sendMessage_empty_noop (s : DashState) (t : String)
    (h : jsTrim s.inputText = "") :
    sendMessage s t = (s, none) := by
  simp [sendMessage, h]

/-- A single status update establishes the completed_at lifecycle
invariant from any state satisfying it. -/
theorem updateStatus_completedIffDone (t : MCTask) (s : TaskStatus)
    (now : Nat) (ht : completedIffDone t) :
    completedIffDone (updateStatus t s now) := by
  unfold completedIffDone at *
  unfold updateStatus
  by_cases hs : s = TaskStatus.done
  · subst hs
    cases hc : t.completed_at <;> simp
  · by_cases htd : t.status = TaskStatus.done
    · simp [hs, htd]
    · have hnone : t.completed_at = none := by
        rcases hc : t.completed_at with _ | c
        · rfl
        · exact absurd (ht.mp (by rw [hc]; exact Option.some_ne_none c)) htd
      simp [hs, htd, hnone]

/-- Any sequence of status updates preserves the completed_at lifecycle
invariant. -/
theorem applyUpdates_completedIffDone (us : List (TaskStatus × Nat)) :
    ∀ t : MCTask, completedIffDone t → completedIffDone (applyUpdates t us) := by
  induction us with
  | nil => exact fun t ht => ht
  | cons u rest ih =>
    intro t ht
    exact ih (updateStatus t u.1 u.2) (updateStatus_completedIffDone t u.1 u.2 ht)

/-- C1: along every sequence of status updates from a task satisfying the
lifecycle invariant, completed_at stays non-null exactly when the status
is done; a transition into done keeps an already-set completed_at
(idempotent) or stamps it if unset, and a transition out of done clears
it. -/
theorem completed_at_iff_done (t : MCTask) (ht : completedIffDone t) :
    (∀ us : List (TaskStatus × Nat), completedIffDone (applyUpdates t us)) ∧
    (∀ s now, t.status = TaskStatus.done → s ≠ TaskStatus.done →
      (updateStatus t s now).completed_at = none) ∧
    (∀ now c, t.completed_at = some c →
      (updateStatus t TaskStatus.done now).completed_at = some c) ∧
    (∀ now, t.completed_at = none →
      (updateStatus t TaskStatus.done now).completed_at = some now) := by
  refine ⟨fun us => applyUpdates_completedIffDone us t ht, ?_, ?_, ?_⟩
  · intro s now htd hs
    simp [updateStatus, hs, htd]
  · intro now c hc
    simp [updateStatus, hc]
  · intro now hc
    simp [updateStatus, hc]

/-- Witness for C1: a concrete inbox task run through a sequence of
updates into and back out of done keeps the invariant at the end, and the
individual clauses hold at concrete times. -/
theorem completed_at_iff_done_witness :
    completedIffDone
      (applyUpdates
        { id := "T", status := TaskStatus.inbox, assignee_ids := [],
          parent_task_id := none, started_at := none, completed_at := none }
        [(TaskStatus.in_progress, 1), (TaskStatus.done, 2),
         (TaskStatus.review, 3), (TaskStatus.done, 4)]) ∧
    (updateStatus
        { id := "T", status := TaskStatus.done, assignee_ids := [],
          parent_task_id := none, started_at := some 1, completed_at := some 2 }
        TaskStatus.review 3).completed_at = none ∧
    (updateStatus
        { id := "T", status := TaskStatus.done, assignee_ids := [],
          parent_task_id := none, started_at := some 1, completed_at := some 2 }
        TaskStatus.done 9).completed_at = some 2 :=
  ⟨(completed_at_iff_done _ (by decide)).1 _,
   (completed_at_iff_done _ (by decide)).2.1 TaskStatus.review 3 rfl (by decide),
   (completed_at_iff_done _ (by decide)).2.2.1 9 2 rfl⟩

/-- C3: assigning at least one agent to an inbox task moves it to
assigned; the produced notification batch has exactly one assignment
notification per newly added assignee — an id receives one iff it is in
the request and not already assigned — and in particular a re-save of
already-assigned agents produces no notification. -/
theorem assignTask_inbox_notifications (t : MCTask) (ids : List String) :
    (t.status = TaskStatus.inbox → ids ≠ [] →
      (assignTask t ids).1.status = TaskStatus.assigned) ∧
    ((assignTask t ids).2.map (fun n => n.agent_id)).Nodup ∧
    (∀ x, x ∈ (assignTask t ids).2.map (fun n => n.agent_id) ↔
      x ∈ ids ∧ ¬ x ∈ t.assignee_ids) ∧
    (∀ n ∈ (assignTask t ids).2, n.ntype = "assignment") ∧
    ((∀ i ∈ ids, i ∈ t.assignee_ids) → (assignTask t ids).2 = []) := by
  have hmap :
      (assignTask t ids).2.map (fun n => n.agent_id) =
        (ids.filter (fun i => ¬ i ∈ t.assignee_ids)).dedup := by
    unfold assignTask
    rw [List.map_map]
    exact List.map_id _
  refine ⟨?_, ?_, ?_, ?_, ?_⟩
  · intro hinbox hne
    rcases List.exists_mem_of_ne_nil ids hne with ⟨i, hi⟩
    unfold assignTask
    simp only [hinbox]
    simp
    intro h1
    exact ⟨i, hi, by simp [h1]⟩
  · rw [hmap]
    exact List.nodup_dedup _
  · intro x
    rw [hmap, List.mem_dedup, List.mem_filter]
    simp
  · intro n hn
    unfold assignTask at hn
    simp only [List.mem_map] at hn
    rcases hn with ⟨i, _, rfl⟩
    rfl
  · intro hall
    unfold assignTask
    simp only []
    have : ids.filter (fun i => ¬ i ∈ t.assignee_ids) = [] := by
      rw [List.filter_eq_nil_iff]
      intro i hi
      simpa using hall i hi
    rw [this]
    rfl

/-- Witness for C3: assigning one new agent to a concrete inbox task
moves it to assigned, and re-assigning an already-assigned agent sends
nothing. -/
theorem assignTask_inbox_notifications_witness :
    (assignTask
        { id := "T", status := TaskStatus.inbox, assignee_ids := [],
          parent_task_id := none, started_at := none, completed_at := none }
        ["a1"]).1.status = TaskStatus.assigned ∧
    (assignTask
        { id := "T", status := TaskStatus.assigned, assignee_ids := ["a1"],
          parent_task_id := none, started_at := none, completed_at := none }
        ["a1"]).2 = [] :=
  ⟨(assignTask_inbox_notifications _ ["a1"]).1 rfl (by decide),
   (assignTask_inbox_notifications _ ["a1"]).2.2.2.2 (by decide)⟩

/-- C6: a parent-link update whose new parent is a descendant of the task
(the walk up the parent chain from the new parent reaches the task) is
rejected with an error, and the rejection leaves the store — in
particular both tasks' parent links — unchanged. -/
theorem setParent_rejects_cycle (store : List (String × Option String))
    (a b : String) (h : reaches store (store.length + 1) b a = true) :
    setParent store a b = Except.error "cycle detected" ∧
    setParentOp store a b = (store, false) ∧
    parentOf (setParentOp store a b).1 a = parentOf store a ∧
    parentOf (setParentOp store a b).1 b = parentOf store b := by
  have herr : setParent store a b = Except.error "cycle detected" := by
    unfold setParent
    rw [if_pos h]
  have hop : setParentOp store a b = (store, false) := by
    unfold setParentOp
    rw [herr]
  exact ⟨herr, hop, by rw [hop], by rw [hop]⟩

/-- Witness for C6: with B a child of A, setting A's parent to B is
rejected and the store keeps both parent links. -/
theorem setParent_rejects_cycle_witness :
    setParentOp [("A", none), ("B", some "A")] "A" "B" =
      ([("A", none), ("B", some "A")], false) :=
  (setParent_rejects_cycle [("A", none), ("B", some "A")] "A" "B" (by decide)).2.1

/-- One log call keeps the log array within 100 entries. -/
theorem log_length_le (s : DashState) (m l t : String)
    (h : s.logs.length ≤ 100) : (log s m l t).logs.length ≤ 100 := by
  have hrfl : (log s m l t).logs =
      if (s.logs ++ [({ time := t, message := m, level := l } : LogEntry)]).length > 100
      then (s.logs ++ [({ time := t, message := m, level := l } : LogEntry)]).tail
      else (s.logs ++ [({ time := t, message := m, level := l } : LogEntry)]) := rfl
  rw [hrfl]
  by_cases hgt : (s.logs ++ [({ time := t, message := m, level := l } : LogEntry)]).length > 100
  · rw [if_pos hgt, List.length_tail]
    simp only [List.length_append, List.length_cons, List.length_nil] at hgt ⊢
    omega
  · rw [if_neg hgt]
    simp only [List.length_append, List.length_cons, List.length_nil] at hgt ⊢
    omega

/-- Any sequence of log calls keeps the log array within 100 entries. -/
theorem applyLogCalls_length_le (calls : List (String × String × String)) :
    ∀ s : DashState, s.logs.length ≤ 100 →
      (applyLogCalls s calls).logs.length ≤ 100 := by
  induction calls with
  | nil => exact fun s h => h
  | cons c rest ih =>
    intro s h
    exact ih (log s c.1 c.2.1 c.2.2) (log_length_le s c.1 c.2.1 c.2.2 h)

/-- C8: starting from a state whose log array is within the 100-entry
bound (as the component's initial empty array is), every sequence of log
calls keeps at most 100 entries; each call puts the new entry at the end,
dropping exactly the single oldest entry when the append would exceed 100
and keeping everything otherwise. -/
theorem log_ring_buffer (s : DashState) (m l t : String)
    (calls : List (String × String × String)) (h : s.logs.length ≤ 100) :
    (applyLogCalls s calls).logs.length ≤ 100 ∧
    (log s m l t).logs.getLast? = some { time := t, message := m, level := l } ∧
    (s.logs.length + 1 > 100 →
      (log s m l t).logs =
        (s.logs ++ [({ time := t, message := m, level := l } : LogEntry)]).tail) ∧
    (s.logs.length + 1 ≤ 100 →
      (log s m l t).logs = s.logs ++ [({ time := t, message := m, level := l } : LogEntry)]) := by
  have hrfl : (log s m l t).logs =
      if (s.logs ++ [({ time := t, message := m, level := l } : LogEntry)]).length > 100
      then (s.logs ++ [({ time := t, message := m, level := l } : LogEntry)]).tail
      else (s.logs ++ [({ time := t, message := m, level := l } : LogEntry)]) := rfl
  have hlen : (s.logs ++ [({ time := t, message := m, level := l } : LogEntry)]).length =
      s.logs.length + 1 := by
    simp
  refine ⟨applyLogCalls_length_le calls s h, ?_, ?_, ?_⟩
  · rw [hrfl]
    by_cases hgt :
        (s.logs ++ [({ time := t, message := m, level := l } : LogEntry)]).length > 100
    · rw [if_pos hgt]
      cases hs : s.logs with
      | nil =>
        rw [hs] at hgt
        simp at hgt
      | cons x xs =>
        rw [List.cons_append, List.tail_cons]
        exact List.getLast?_concat _
    · rw [if_neg hgt]
      exact List.getLast?_concat _
  · intro hbig
    rw [hrfl, if_pos (by rw [hlen]; exact hbig)]
  · intro hsmall
    rw [hrfl, if_neg (by rw [hlen]; omega)]

/-- Witness for C8: from the initial empty state a concrete log call
keeps the bound, appends at the end and drops nothing. -/
theorem log_ring_buffer_witness :
    (applyLogCalls
        { messages := [], logs := [], inputText := "", isStreaming := false,
          streamingContent := "" }
        [("hello", "info", "t1")]).logs.length ≤ 100 ∧
    (log
        { messages := [], logs := [], inputText := "", isStreaming := false,
          streamingContent := "" }
        "hello" "info" "t1").logs =
      [{ time := "t1", message := "hello", level := "info" }] :=
  ⟨(log_ring_buffer _ "hello" "info" "t1" [("hello", "info", "t1")]
      (by decide)).1,
   (log_ring_buffer _ "hello" "info" "t1" [] (by decide)).2.2.2 (by decide)⟩

/-- Membership in the accumulated id list: an id is collected exactly
when some token either is the literal "all" and the id is an assignee, or
finds an agent with that id by case-insensitive name lookup. -/
theorem mem_collectIds (agents : List Agent) (assignees : List String)
    (toks : List (List Char)) (x : String) :
    x ∈ collectIds agents assignees toks ↔
      ∃ tok ∈ toks,
        (tok = "all".data ∧ x ∈ assignees) ∨
        (tok ≠ "all".data ∧
          ∃ ag, agents.find?
              (fun ag => lowerStr ag.name = tok.map Char.toLower) = some ag ∧
            ag.id = x) := by
  induction toks with
  | nil => simp [collectIds]
  | cons tok rest ih =>
    simp only [collectIds]
    by_cases hall : tok = "all".data
    · rw [if_pos hall]
      constructor
      · intro hx
        rcases List.mem_append.mp hx with hmem | hmem
        · exact ⟨tok, List.mem_cons_self tok rest, Or.inl ⟨hall, hmem⟩⟩
        · rcases ih.mp hmem with ⟨tok', htok', hp⟩
          exact ⟨tok', List.mem_cons_of_mem _ htok', hp⟩
      · rintro ⟨tok', htok', hp⟩
        rcases List.mem_cons.mp htok' with rfl | htok''
        · rcases hp with ⟨_, hmem⟩ | ⟨hne, _⟩
          · exact List.mem_append.mpr (Or.inl hmem)
          · exact absurd hall hne
        · exact List.mem_append.mpr (Or.inr (ih.mpr ⟨tok', htok'', hp⟩))
    · rw [if_neg hall]
      cases hf : agents.find? (fun ag => lowerStr ag.name = tok.map Char.toLower) with
      | some ag =>
        constructor
        · intro hx
          rcases List.mem_cons.mp hx with rfl | hx'
          · exact ⟨tok, List.mem_cons_self tok rest,
              Or.inr ⟨hall, ag, hf, rfl⟩⟩
          · rcases ih.mp hx' with ⟨tok', htok', hp⟩
            exact ⟨tok', List.mem_cons_of_mem _ htok', hp⟩
        · rintro ⟨tok', htok', hp⟩
          rcases List.mem_cons.mp htok' with rfl | htok''
          · rcases hp with ⟨hall', _⟩ | ⟨_, ag', hf', hid⟩
            · exact absurd hall' hall
            · rw [hf] at hf'
              rcases Option.some.inj hf' with rfl
              exact hid ▸ List.mem_cons_self ag.id _
          · exact List.mem_cons_of_mem _ (ih.mpr ⟨tok', htok'', hp⟩)
      | none =>
        constructor
        · intro hx
          rcases ih.mp hx with ⟨tok', htok', hp⟩
          exact ⟨tok', List.mem_cons_of_mem _ htok', hp⟩
        · rintro ⟨tok', htok', hp⟩
          rcases List.mem_cons.mp htok' with rfl | htok''
          · rcases hp with ⟨hall', _⟩ | ⟨_, ag', hf', _⟩
            · exact absurd hall' hall
            · rw [hf] at hf'
              cases hf'
          · exact ih.mpr ⟨tok', htok'', hp⟩

/-- Under case-insensitive uniqueness of agent names, the resolver's
first-match lookup finds an agent with a given id exactly when some
directory agent with that id has the token as its name. -/
theorem find?_name_spec (agents : List Agent) (tok : List Char) (x : String)
    (hUniq : ∀ a1 ∈ agents, ∀ a2 ∈ agents,
      lowerStr a1.name = lowerStr a2.name → a1.id = a2.id) :
    (∃ ag, agents.find?
        (fun ag => lowerStr ag.name = tok.map Char.toLower) = some ag ∧
      ag.id = x) ↔
      ∃ ag ∈ agents, lowerStr ag.name = tok.map Char.toLower ∧ ag.id = x := by
  constructor
  · rintro ⟨ag, hf, hid⟩
    have hmem := List.mem_of_find?_eq_some hf
    have hp := List.find?_some hf
    refine ⟨ag, hmem, ?_, hid⟩
    simpa using hp
  · rintro ⟨ag, hmem, hname, hid⟩
    have hsome : (agents.find?
        (fun ag => lowerStr ag.name = tok.map Char.toLower)).isSome := by
      rw [List.find?_isSome]
      exact ⟨ag, hmem, by simpa using hname⟩
    rcases Option.isSome_iff_exists.mp hsome with ⟨ag', hf⟩
    have hmem' := List.mem_of_find?_eq_some hf
    have hp' := List.find?_some hf
    have hname' : lowerStr ag'.name = tok.map Char.toLower := by simpa using hp'
    refine ⟨ag', hf, ?_⟩
    rw [hUniq ag' hmem' ag hmem (hname'.trans hname.symm), hid]

/-- C2: under case-insensitive uniqueness of agent names, resolve returns
a duplicate-free list whose members are exactly the assignee ids
contributed by a literal "all" token together with the ids of directory
agents whose names occur as mention tokens (case-insensitively); unknown
token names contribute nothing. -/
theorem resolve_mentions (content : String) (agents : List Agent)
    (assignees : List String)
    (hUniq : ∀ a1 ∈ agents, ∀ a2 ∈ agents,
      lowerStr a1.name = lowerStr a2.name → a1.id = a2.id) :
    (resolve content agents assignees).Nodup ∧
    ∀ x, x ∈ resolve content agents assignees ↔
      ∃ tok ∈ scanTokens false content.data,
        (tok = "all".data ∧ x ∈ assignees) ∨
        (tok ≠ "all".data ∧
          ∃ ag ∈ agents, lowerStr ag.name = tok.map Char.toLower ∧
            ag.id = x) := by
  refine ⟨List.nodup_dedup _, fun x => ?_⟩
  unfold resolve
  rw [List.mem_dedup, mem_collectIds]
  constructor
  · rintro ⟨tok, htok, hp⟩
    refine ⟨tok, htok, ?_⟩
    rcases hp with h | ⟨hne, hex⟩
    · exact Or.inl h
    · exact Or.inr ⟨hne, (find?_name_spec agents tok x hUniq).mp hex⟩
  · rintro ⟨tok, htok, hp⟩
    refine ⟨tok, htok, ?_⟩
    rcases hp with h | ⟨hne, hex⟩
    · exact Or.inl h
    · exact Or.inr ⟨hne, (find?_name_spec agents tok x hUniq).mpr hex⟩

/-- Witness for C2 on the documentation's scenario: a message mentioning
Shuri by name and all participants resolves, for the directory Jarvis and
Shuri with Shuri and an unknown id as assignees, to a duplicate-free list
containing the assignee id contributed by the "all" token; the unknown
name contributes nothing. -/
theorem resolve_mentions_witness :
    (resolve "hey @Shuri and @all fyi @Unknown"
        [{ id := "id1", name := "Jarvis", status := AgentStatus.idle, last_heartbeat := none },
         { id := "id2", name := "Shuri", status := AgentStatus.idle, last_heartbeat := none }]
        ["id2", "id9"]).Nodup ∧
    "id9" ∈ resolve "hey @Shuri and @all fyi @Unknown"
        [{ id := "id1", name := "Jarvis", status := AgentStatus.idle, last_heartbeat := none },
         { id := "id2", name := "Shuri", status := AgentStatus.idle, last_heartbeat := none }]
        ["id2", "id9"] :=
  ⟨(resolve_mentions _ _ _ (by decide)).1,
   ((resolve_mentions _ _ _ (by decide)).2 "id9").mpr (by decide)⟩

/-- Witness for C10 at a concrete state whose input is whitespace
only. -/
theorem sendMessage_empty_noop_witness :
    sendMessage { messages := [], logs := [], inputText := "   ", isStreaming := false, streamingContent := "" } "10:00" =
      ({ messages := [], logs := [], inputText := "   ", isStreaming := false, streamingContent := "" }, none) :=
  sendMessage_empty_noop _ "10:00" (by decide)
